import Mathlib

/-!
Verification of the HolyC++ numeric core (fixed-width bounded integers,
tagged unions, tagged values) against its specification.

The C++ templates `UInt<Bits>` and `SInt<Bits>` store a native machine
integer; we embed a stored value as an `Int` known to lie in the type
range, and each operation as a function on `Int` translated clause by
clause from the source.  C++ truncating division and remainder are
`Int.tdiv` and `Int.tmod`; reduction of a wider intermediate to the
storage type is explicit reduction modulo `2 ^ w`.
-/

namespace holycpp

/-- Failure kinds of the error-handling design (spec section 7).  Each throw
site of the source maps to one kind: `std::overflow_error` to `Overflow`,
`std::underflow_error` to `Underflow`, the division and modulo
`std::domain_error` to `DivideByZero`, the shift `std::out_of_range` to
`ShiftOutOfRange`, the conversion `std::out_of_range` with a negative signed
source to `NegativeToUnsigned` and otherwise to `OutOfRange`, and the union
and Value `std::runtime_error` to `WrongActiveType` and `WrongKind`. -/
inductive HError where
  | Overflow
  | Underflow
  | DivideByZero
  | ShiftOutOfRange
  | OutOfRange
  | NegativeToUnsigned
  | WrongActiveType
  | WrongKind
deriving DecidableEq, Repr

/-- `UInt<w>::MAX` (src/src/types/unsigned_int.hpp lines 47-51): `2 ^ w - 1`. -/
def umax (w : Nat) : Int := 2 ^ w - 1

/-- `SInt<w>::MIN` (src/unnamed/part_001 lines 39-43): `-(2 ^ (w-1))`. -/
def smin (w : Nat) : Int := -(2 ^ (w - 1))

/-- `SInt<w>::MAX` (src/unnamed/part_001 lines 44-48): `2 ^ (w-1) - 1`. -/
def smax (w : Nat) : Int := 2 ^ (w - 1) - 1

/-- A value representable by the unsigned storage type of width `w`. -/
abbrev uinRange (w : Nat) (a : Int) : Prop := 0 ≤ a ∧ a ≤ umax w

/-- A value representable by the signed storage type of width `w`. -/
abbrev sinRange (w : Nat) (a : Int) : Prop := smin w ≤ a ∧ a ≤ smax w

/-- Reduction of an integer to the unsigned storage type of width `w`
(the effect of `static_cast` to the unsigned storage type). -/
def wrapU (w : Nat) (x : Int) : Int := x % 2 ^ w

/-- Reduction of an integer to the signed storage type of width `w`
(the effect of `static_cast` to the signed storage type on a two-complement
machine): the representative of `x` modulo `2 ^ w` lying in
`[smin w, smax w]`. -/
def wrapS (w : Nat) (x : Int) : Int := (x + 2 ^ (w - 1)) % 2 ^ w - 2 ^ (w - 1)

namespace UInt

/-- `UInt<w>::checked_add` (src/src/types/unsigned_int.hpp lines 118-123):
`if (value > MAX - other.value) throw overflow; return UInt(value + other.value)`.
For operands in range, `MAX - other.value` does not wrap, so the machine
subtraction agrees with the mathematical one. -/
def checked_add (w : Nat) (a b : Int) : Except HError Int :=
  if umax w - b < a then .error .Overflow else .ok (a + b)

/-- `UInt<w>::checked_sub` (src/src/types/unsigned_int.hpp lines 125-130):
`if (value < other.value) throw underflow; return UInt(value - other.value)`. -/
def checked_sub (w : Nat) (a b : Int) : Except HError Int :=
  if a < b then .error .Underflow else .ok (a - b)

/-- `UInt<w>::checked_mul` (src/src/types/unsigned_int.hpp lines 132-137):
`if (other.value != 0 && value > MAX / other.value) throw overflow;
return UInt(value * other.value)`; unsigned machine division of in-range
operands is truncating division. -/
def checked_mul (w : Nat) (a b : Int) : Except HError Int :=
  if b ≠ 0 ∧ (umax w).tdiv b < a then .error .Overflow else .ok (a * b)

/-- `UInt<w>::operator+` (src/src/types/unsigned_int.hpp line 140): native
wrapping addition, the sum reduced to the storage type. -/
def add (w : Nat) (a b : Int) : Int := wrapU w (a + b)

/-- `UInt<w>::operator-` (src/src/types/unsigned_int.hpp line 141). -/
def sub (w : Nat) (a b : Int) : Int := wrapU w (a - b)

/-- `UInt<w>::operator*` (src/src/types/unsigned_int.hpp line 142). -/
def mul (w : Nat) (a b : Int) : Int := wrapU w (a * b)

/-- `UInt<w>::operator/` (src/src/types/unsigned_int.hpp lines 143-148):
`if (other.value == 0) throw domain_error; return UInt(value / other.value)`. -/
def div (w : Nat) (a b : Int) : Except HError Int :=
  if b = 0 then .error .DivideByZero else .ok (a.tdiv b)

/-- `UInt<w>::operator%` (src/src/types/unsigned_int.hpp lines 149-154). -/
def mod (w : Nat) (a b : Int) : Except HError Int :=
  if b = 0 then .error .DivideByZero else .ok (a.tmod b)

/-- `UInt<w>::operator<<(const UInt&)` (src/src/types/unsigned_int.hpp lines
161-166): `if (other.value >= BITS) throw out_of_range; return
UInt(value << other.value)`.  The shift amount is a value of the same
unsigned type, hence nonnegative. -/
def shl (w : Nat) (a s : Int) : Except HError Int :=
  if (w : Int) ≤ s then .error .ShiftOutOfRange else .ok (wrapU w (a * 2 ^ s.toNat))

/-- `UInt<w>::operator>>(const UInt&)` (src/src/types/unsigned_int.hpp lines
167-172). -/
def shr (w : Nat) (a s : Int) : Except HError Int :=
  if (w : Int) ≤ s then .error .ShiftOutOfRange else .ok (a.tdiv (2 ^ s.toNat))

/-- `UInt<w>::operator<<(T)` for a native integral shift amount
(src/src/types/unsigned_int.hpp lines 175-181): the guard is only
`shift >= static_cast<T>(BITS)`; there is no negativity check, so a negative
native shift amount passes the guard and reaches the native shift expression
(whose behavior C++ leaves undefined for negative amounts).  The value branch
of this model is meaningful for nonnegative amounts. -/
def shlNative (w : Nat) (a s : Int) : Except HError Int :=
  if (w : Int) ≤ s then .error .ShiftOutOfRange else .ok (wrapU w (a * 2 ^ s.toNat))

/-- `UInt<w>::operator>>(T)` for a native integral shift amount
(src/src/types/unsigned_int.hpp lines 182-188): same guard, no negativity
check. -/
def shrNative (w : Nat) (a s : Int) : Except HError Int :=
  if (w : Int) ≤ s then .error .ShiftOutOfRange else .ok (a.tdiv (2 ^ s.toNat))

/-- `UInt<tw>::UInt(const SInt<sw>&)` (src/unnamed/part_001 lines 324-335):
throw if the signed raw value is negative; when `sw > tw` (narrowing),
`check_bounds` additionally throws if the value exceeds
`static_cast<signed sw-bit>(MAX)`, which is `wrapS sw (umax tw)`; finally the
value is cast to the unsigned storage type. -/
def fromSInt (tw sw : Nat) (v : Int) : Except HError Int :=
  if v < 0 then .error .NegativeToUnsigned
  else if tw < sw ∧ wrapS sw (umax tw) < v then .error .OutOfRange
  else .ok (wrapU tw v)

end UInt

namespace SInt

/-- `SInt<w>::checked_add` (src/unnamed/part_001 lines 117-123):
`if ((other.value > 0 && value > MAX - other.value) ||
(other.value < 0 && value < MIN - other.value)) throw overflow`. -/
def checked_add (w : Nat) (a b : Int) : Except HError Int :=
  if (0 < b ∧ smax w - b < a) ∨ (b < 0 ∧ a < smin w - b) then .error .Overflow
  else .ok (a + b)

/-- `SInt<w>::checked_sub` (src/unnamed/part_001 lines 125-131):
`if ((other.value < 0 && value > MAX + other.value) ||
(other.value > 0 && value < MIN + other.value)) throw overflow`. -/
def checked_sub (w : Nat) (a b : Int) : Except HError Int :=
  if (b < 0 ∧ smax w + b < a) ∨ (0 < b ∧ a < smin w + b) then .error .Overflow
  else .ok (a - b)

/-- `SInt<w>::checked_mul` (src/unnamed/part_001 lines 133-147): the four
sign-case pre-checks, each dividing a range bound by one operand with C++
truncating division. -/
def checked_mul (w : Nat) (a b : Int) : Except HError Int :=
  if 0 < a ∧ 0 < b ∧ (smax w).tdiv b < a then .error .Overflow
  else if 0 < a ∧ b < 0 ∧ b < (smin w).tdiv a then .error .Overflow
  else if a < 0 ∧ 0 < b ∧ a < (smin w).tdiv b then .error .Overflow
  else if a < 0 ∧ b < 0 ∧ a < (smax w).tdiv b then .error .Overflow
  else .ok (a * b)

/-- `SInt<w>::operator+` (src/unnamed/part_001 line 150): native wrapping
addition followed by the cast back to the storage type. -/
def add (w : Nat) (a b : Int) : Int := wrapS w (a + b)

/-- `SInt<w>::operator-` (src/unnamed/part_001 line 151). -/
def sub (w : Nat) (a b : Int) : Int := wrapS w (a - b)

/-- `SInt<w>::operator*` (src/unnamed/part_001 line 152). -/
def mul (w : Nat) (a b : Int) : Int := wrapS w (a * b)

/-- `SInt<w>::operator/` (src/unnamed/part_001 lines 153-161): divide by zero
throws `domain_error`; `MIN / -1` throws `overflow_error`; otherwise C++
truncating division. -/
def div (w : Nat) (a b : Int) : Except HError Int :=
  if b = 0 then .error .DivideByZero
  else if a = smin w ∧ b = -1 then .error .Overflow
  else .ok (a.tdiv b)

/-- `SInt<w>::operator%` (src/unnamed/part_001 lines 162-167): only the zero
divisor is rejected (unlike `operator/`, which also guards MIN / -1); then
`value % other.value` is evaluated.  C++17 defines that expression only when
the quotient is representable, so at (MIN, -1) the program reaches undefined
behavior — the configured g++/x86-64 toolchain traps there — which the
embedding records as `none`; a thrown failure is `some (.error e)` and a
defined remainder (the C++ truncating remainder) is `some (.ok r)`. -/
def mod (w : Nat) (a b : Int) : Option (Except HError Int) :=
  if b = 0 then some (.error .DivideByZero)
  else if a = smin w ∧ b = -1 then none
  else some (.ok (a.tmod b))

/-- Unary `SInt<w>::operator-` (src/unnamed/part_001 lines 168-173):
`if (value == MIN) throw overflow; return SInt(-value)`. -/
def neg (w : Nat) (a : Int) : Except HError Int :=
  if a = smin w then .error .Overflow else .ok (-a)

/-- `SInt<w>::operator<<(const SInt&)` (src/unnamed/part_001 lines 180-185):
`if (other.value < 0 || other.value >= BITS) throw out_of_range`. -/
def shl (w : Nat) (a s : Int) : Except HError Int :=
  if s < 0 ∨ (w : Int) ≤ s then .error .ShiftOutOfRange
  else .ok (wrapS w (a * 2 ^ s.toNat))

/-- `SInt<w>::operator>>(const SInt&)` (src/unnamed/part_001 lines 186-191):
same guard; arithmetic right shift is flooring division by `2 ^ s`. -/
def shr (w : Nat) (a s : Int) : Except HError Int :=
  if s < 0 ∨ (w : Int) ≤ s then .error .ShiftOutOfRange
  else .ok (a / 2 ^ s.toNat)

/-- `SInt<w>::operator<<(T)` for a native integral shift amount
(src/unnamed/part_001 lines 194-200): unlike the unsigned counterpart, the
guard does check `shift < 0`. -/
def shlNative (w : Nat) (a s : Int) : Except HError Int :=
  if s < 0 ∨ (w : Int) ≤ s then .error .ShiftOutOfRange
  else .ok (wrapS w (a * 2 ^ s.toNat))

/-- `SInt<w>::operator>>(T)` for a native integral shift amount
(src/unnamed/part_001 lines 201-207). -/
def shrNative (w : Nat) (a s : Int) : Except HError Int :=
  if s < 0 ∨ (w : Int) ≤ s then .error .ShiftOutOfRange
  else .ok (a / 2 ^ s.toNat)

/-- `SInt<tw>::SInt(const UInt<sw>&)` (src/unnamed/part_001 lines 57-64):
`if (raw_val > static_cast<unsigned sw-bit>(MAX)) throw out_of_range;
value = static_cast<storage_type>(raw_val)`.  The cast of the positive
signed bound `MAX` to the unsigned source storage type is `wrapU sw (smax tw)`. -/
def fromUInt (tw sw : Nat) (v : Int) : Except HError Int :=
  if wrapU sw (smax tw) < v then .error .OutOfRange else .ok (wrapS tw v)

end SInt

/-- State-passing form of a `const` arithmetic method call: the result is
paired with the receiver value after the call.  The checked operations are
`const` member functions constructing a fresh value, so the receiver after
the call is the receiver before it. -/
def constCall (f : Int → Int → Except HError Int) (a b : Int) :
    Except HError Int × Int :=
  (f a b, a)

/-! ### Arithmetic helper lemmas -/

theorem pow_sub_one_double (w : Nat) (hw : 1 ≤ w) :
    (2 : Int) ^ w = 2 ^ (w - 1) * 2 := by
  rw [← pow_succ]
  congr 1
  omega

theorem tdiv_lt_iff_of_pos {M c y : Int} (hM : 0 ≤ M) (hc : 0 < c) :
    M.tdiv c < y ↔ M < y * c := by
  rw [Int.tdiv_eq_ediv hM hc.le, ← not_le, Int.le_ediv_iff_mul_le hc, not_le]

theorem wrapU_emod (w : Nat) (x : Int) : wrapU w x % 2 ^ w = x % 2 ^ w := by
  exact Int.emod_emod_of_dvd x dvd_rfl

theorem wrapU_range (w : Nat) (x : Int) : uinRange w (wrapU w x) := by
  have h : (0 : Int) < 2 ^ w := pow_pos (by norm_num) w
  have h2 := Int.emod_lt_of_pos x h
  have hu : umax w = 2 ^ w - 1 := rfl
  refine ⟨Int.emod_nonneg x (ne_of_gt h), ?_⟩
  unfold wrapU
  omega

theorem wrapU_eq_self (w : Nat) {x : Int} (hx : uinRange w x) : wrapU w x = x := by
  have hu : umax w = 2 ^ w - 1 := rfl
  exact Int.emod_eq_of_lt hx.1 (by have := hx.2; omega)

theorem wrapS_emod (w : Nat) (hw : 1 ≤ w) (x : Int) :
    wrapS w x % 2 ^ w = x % 2 ^ w := by
  have h0 : (0 : Int) < 2 ^ w := pow_pos (by norm_num) w
  have h2 := pow_sub_one_double w hw
  have hh : (0 : Int) ≤ 2 ^ (w - 1) := (pow_pos (by norm_num) (w - 1)).le
  unfold wrapS
  rw [show ((x + 2 ^ (w - 1)) % 2 ^ w - 2 ^ (w - 1)) % 2 ^ w
        = ((x + 2 ^ (w - 1)) % 2 ^ w - 2 ^ (w - 1) % 2 ^ w) % 2 ^ w by
        rw [Int.emod_eq_of_lt hh (by omega)],
      ← Int.sub_emod, add_sub_cancel_right]

theorem wrapS_range (w : Nat) (hw : 1 ≤ w) (x : Int) : sinRange w (wrapS w x) := by
  have h0 : (0 : Int) < 2 ^ w := pow_pos (by norm_num) w
  have h2 := pow_sub_one_double w hw
  have hge := Int.emod_nonneg (x + 2 ^ (w - 1)) (ne_of_gt h0)
  have hlt := Int.emod_lt_of_pos (x + 2 ^ (w - 1)) h0
  refine ⟨?_, ?_⟩ <;> simp only [wrapS, smin, smax] <;> omega

theorem wrapS_eq_self (w : Nat) (hw : 1 ≤ w) {x : Int} (hx : sinRange w x) :
    wrapS w x = x := by
  have h2 := pow_sub_one_double w hw
  obtain ⟨h3, h4⟩ := hx
  unfold smin at h3
  unfold smax at h4
  unfold wrapS
  rw [Int.emod_eq_of_lt (by omega) (by omega)]
  omega

/-! ### Checked arithmetic agrees with the mathematical range predicate -/

theorem uadd_checked_eq (w : Nat) {a b : Int} (ha : uinRange w a)
    (hb : uinRange w b) :
    UInt.checked_add w a b
      = if umax w < a + b then .error .Overflow else .ok (a + b) := by
  have hu : umax w = 2 ^ w - 1 := rfl
  obtain ⟨h1, h2⟩ := ha
  obtain ⟨h3, h4⟩ := hb
  unfold UInt.checked_add
  split_ifs <;> first | rfl | (exfalso; omega)

theorem usub_checked_eq (w : Nat) {a b : Int} (ha : uinRange w a)
    (hb : uinRange w b) :
    UInt.checked_sub w a b
      = if a - b < 0 then .error .Underflow else .ok (a - b) := by
  unfold UInt.checked_sub
  split_ifs <;> first | rfl | (exfalso; omega)

theorem umul_checked_eq (w : Nat) {a b : Int} (ha : uinRange w a)
    (hb : uinRange w b) :
    UInt.checked_mul w a b
      = if umax w < a * b then .error .Overflow else .ok (a * b) := by
  have hu : umax w = 2 ^ w - 1 := rfl
  have hp : (0 : Int) < 2 ^ w := pow_pos (by norm_num) w
  have h0 : (0 : Int) ≤ umax w := by omega
  obtain ⟨h1, h2⟩ := ha
  obtain ⟨h3, h4⟩ := hb
  rcases eq_or_lt_of_le h3 with hb0 | hb0
  · rw [← hb0]
    unfold UInt.checked_mul
    rw [if_neg (by rintro ⟨h, -⟩; exact h rfl), if_neg (by omega)]
  · have key := tdiv_lt_iff_of_pos h0 hb0 (y := a)
    unfold UInt.checked_mul
    by_cases hov : umax w < a * b
    · rw [if_pos ⟨ne_of_gt hb0, key.mpr hov⟩, if_pos hov]
    · rw [if_neg (by rintro ⟨-, hlt⟩; exact hov (key.mp hlt)), if_neg hov]

theorem sadd_checked_eq (w : Nat) (hw : 1 ≤ w) {a b : Int}
    (ha : sinRange w a) (hb : sinRange w b) :
    SInt.checked_add w a b
      = if smax w < a + b ∨ a + b < smin w then .error .Overflow
        else .ok (a + b) := by
  have hs : smin w = -(2 ^ (w - 1)) := rfl
  have hx : smax w = 2 ^ (w - 1) - 1 := rfl
  have hp : (0 : Int) < 2 ^ (w - 1) := pow_pos (by norm_num) _
  obtain ⟨h1, h2⟩ := ha
  obtain ⟨h3, h4⟩ := hb
  unfold SInt.checked_add
  split_ifs <;> first | rfl | (exfalso; omega)

theorem ssub_checked_eq (w : Nat) (hw : 1 ≤ w) {a b : Int}
    (ha : sinRange w a) (hb : sinRange w b) :
    SInt.checked_sub w a b
      = if smax w < a - b ∨ a - b < smin w then .error .Overflow
        else .ok (a - b) := by
  have hs : smin w = -(2 ^ (w - 1)) := rfl
  have hx : smax w = 2 ^ (w - 1) - 1 := rfl
  have hp : (0 : Int) < 2 ^ (w - 1) := pow_pos (by norm_num) _
  obtain ⟨h1, h2⟩ := ha
  obtain ⟨h3, h4⟩ := hb
  unfold SInt.checked_sub
  split_ifs <;> first | rfl | (exfalso; omega)

theorem smul_checked_eq (w : Nat) (hw : 1 ≤ w) {a b : Int}
    (ha : sinRange w a) (hb : sinRange w b) :
    SInt.checked_mul w a b
      = if smax w < a * b ∨ a * b < smin w then .error .Overflow
        else .ok (a * b) := by
  have hs : smin w = -(2 ^ (w - 1)) := rfl
  have hx : smax w = 2 ^ (w - 1) - 1 := rfl
  have hp : (0 : Int) < 2 ^ (w - 1) := pow_pos (by norm_num) _
  have hsx : (0 : Int) ≤ smax w := by omega
  have hM : (0 : Int) ≤ (2 : Int) ^ (w - 1) := hp.le
  obtain ⟨h1, h2⟩ := ha
  obtain ⟨h3, h4⟩ := hb
  rcases lt_trichotomy a 0 with ha0 | ha0 | ha0
  · rcases lt_trichotomy b 0 with hb0 | hb0 | hb0
    · -- a < 0, b < 0: only the fourth pre-check can fire
      have hab : 0 < a * b := mul_pos_of_neg_of_neg ha0 hb0
      have e1 : (smax w).tdiv b = -((smax w).tdiv (-b)) := by
        rw [← Int.tdiv_neg, neg_neg]
      have key := tdiv_lt_iff_of_pos hsx (show (0 : Int) < -b by omega) (y := -a)
      rw [neg_mul_neg] at key
      have key2 : a < (smax w).tdiv b ↔ smax w < a * b := by
        rw [e1]
        constructor
        · intro h
          exact key.mp (by omega)
        · intro h
          have := key.mpr h
          omega
      unfold SInt.checked_mul
      rw [if_neg (by rintro ⟨h, -⟩; omega), if_neg (by rintro ⟨h, -⟩; omega),
          if_neg (by rintro ⟨-, h, -⟩; omega)]
      by_cases hov : smax w < a * b
      · rw [if_pos ⟨ha0, hb0, key2.mpr hov⟩, if_pos (Or.inl hov)]
      · have hno : ¬(smax w < a * b ∨ a * b < smin w) := by
          rintro (h | h)
          · exact hov h
          · omega
        rw [if_neg (by rintro ⟨-, -, h⟩; exact hov (key2.mp h)), if_neg hno]
    · -- a < 0, b = 0: no pre-check fires and the product is zero
      subst hb0
      unfold SInt.checked_mul
      rw [if_neg (by rintro ⟨h, -⟩; omega), if_neg (by rintro ⟨-, h, -⟩; omega),
          if_neg (by rintro ⟨-, h, -⟩; omega), if_neg (by rintro ⟨-, h, -⟩; omega),
          if_neg (by omega)]
    · -- a < 0, 0 < b: only the third pre-check can fire
      have hab : a * b < 0 := mul_neg_of_neg_of_pos ha0 hb0
      have e1 : (smin w).tdiv b = -(((2 : Int) ^ (w - 1)).tdiv b) := by
        rw [hs, Int.neg_tdiv]
      have key := tdiv_lt_iff_of_pos hM hb0 (y := -a)
      have key2 : a < (smin w).tdiv b ↔ a * b < smin w := by
        rw [e1, hs]
        constructor
        · intro h
          have h2 := key.mp (by omega)
          rw [neg_mul] at h2
          omega
        · intro h
          have h2 : (2 : Int) ^ (w - 1) < -a * b := by
            rw [neg_mul]
            omega
          have := key.mpr h2
          omega
      unfold SInt.checked_mul
      rw [if_neg (by rintro ⟨h, -⟩; omega), if_neg (by rintro ⟨h, -⟩; omega)]
      by_cases hov : a * b < smin w
      · rw [if_pos ⟨ha0, hb0, key2.mpr hov⟩, if_pos (Or.inr hov)]
      · have hno : ¬(smax w < a * b ∨ a * b < smin w) := by
          rintro (h | h)
          · omega
          · exact hov h
        rw [if_neg (by rintro ⟨-, -, h⟩; exact hov (key2.mp h)),
            if_neg (by rintro ⟨-, h, -⟩; omega), if_neg hno]
  · -- a = 0: no pre-check fires and the product is zero
    subst ha0
    unfold SInt.checked_mul
    rw [if_neg (by rintro ⟨h, -⟩; omega), if_neg (by rintro ⟨h, -⟩; omega),
        if_neg (by rintro ⟨h, -⟩; omega), if_neg (by rintro ⟨h, -⟩; omega),
        if_neg (by omega)]
  · rcases lt_trichotomy b 0 with hb0 | hb0 | hb0
    · -- 0 < a, b < 0: only the second pre-check can fire
      have hab : a * b < 0 := mul_neg_of_pos_of_neg ha0 hb0
      have e1 : (smin w).tdiv a = -(((2 : Int) ^ (w - 1)).tdiv a) := by
        rw [hs, Int.neg_tdiv]
      have key := tdiv_lt_iff_of_pos hM ha0 (y := -b)
      have key2 : b < (smin w).tdiv a ↔ a * b < smin w := by
        rw [e1, hs]
        constructor
        · intro h
          have h2 := key.mp (by omega)
          rw [neg_mul, mul_comm] at h2
          omega
        · intro h
          have h2 : (2 : Int) ^ (w - 1) < -b * a := by
            rw [neg_mul, mul_comm]
            omega
          have := key.mpr h2
          omega
      unfold SInt.checked_mul
      rw [if_neg (by rintro ⟨-, h, -⟩; omega)]
      by_cases hov : a * b < smin w
      · rw [if_pos ⟨ha0, hb0, key2.mpr hov⟩, if_pos (Or.inr hov)]
      · have hno : ¬(smax w < a * b ∨ a * b < smin w) := by
          rintro (h | h)
          · omega
          · exact hov h
        rw [if_neg (by rintro ⟨-, -, h⟩; exact hov (key2.mp h)),
            if_neg (by rintro ⟨h, -⟩; omega), if_neg (by rintro ⟨h, -⟩; omega),
            if_neg hno]
    · -- 0 < a, b = 0
      subst hb0
      unfold SInt.checked_mul
      rw [if_neg (by rintro ⟨-, h, -⟩; omega), if_neg (by rintro ⟨-, h, -⟩; omega),
          if_neg (by rintro ⟨h, -⟩; omega), if_neg (by rintro ⟨h, -⟩; omega),
          if_neg (by omega)]
    · -- 0 < a, 0 < b: only the first pre-check can fire
      have hab : 0 < a * b := mul_pos ha0 hb0
      have key := tdiv_lt_iff_of_pos hsx hb0 (y := a)
      unfold SInt.checked_mul
      by_cases hov : smax w < a * b
      · rw [if_pos ⟨ha0, hb0, key.mpr hov⟩, if_pos (Or.inl hov)]
      · have hno : ¬(smax w < a * b ∨ a * b < smin w) := by
          rintro (h | h)
          · exact hov h
          · omega
        rw [if_neg (by rintro ⟨-, -, h⟩; exact hov (key.mp h)),
            if_neg (by rintro ⟨-, h, -⟩; omega), if_neg (by rintro ⟨h, -⟩; omega),
            if_neg (by rintro ⟨h, -⟩; omega), if_neg hno]

/-- Claim C1: for every width in {8,16,32,64} and both signednesses, the
checked operations fail (Overflow, or Underflow for unsigned subtraction
below zero) exactly when the mathematical result leaves [MIN, MAX], and on
success return exactly the mathematical result; the four sign-case
truncating-division pre-checks of signed checked_mul agree with the
mathematical out-of-range predicate; and in every case the receiver of the
call is unchanged. -/
theorem C1_checked_arithmetic (w : Nat) (hw : w = 8 ∨ w = 16 ∨ w = 32 ∨ w = 64)
    (a b : Int) (ha : sinRange w a) (hb : sinRange w b)
    (u v : Int) (hu : uinRange w u) (hv : uinRange w v) :
    (UInt.checked_add w u v
      = if umax w < u + v then .error .Overflow else .ok (u + v)) ∧
    (UInt.checked_sub w u v
      = if u - v < 0 then .error .Underflow else .ok (u - v)) ∧
    (UInt.checked_mul w u v
      = if umax w < u * v then .error .Overflow else .ok (u * v)) ∧
    (SInt.checked_add w a b
      = if smax w < a + b ∨ a + b < smin w then .error .Overflow
        else .ok (a + b)) ∧
    (SInt.checked_sub w a b
      = if smax w < a - b ∨ a - b < smin w then .error .Overflow
        else .ok (a - b)) ∧
    (SInt.checked_mul w a b
      = if smax w < a * b ∨ a * b < smin w then .error .Overflow
        else .ok (a * b)) ∧
    (constCall (UInt.checked_add w) u v).2 = u ∧
    (constCall (UInt.checked_sub w) u v).2 = u ∧
    (constCall (UInt.checked_mul w) u v).2 = u ∧
    (constCall (SInt.checked_add w) a b).2 = a ∧
    (constCall (SInt.checked_sub w) a b).2 = a ∧
    (constCall (SInt.checked_mul w) a b).2 = a := by
  have hw1 : 1 ≤ w := by rcases hw with h | h | h | h <;> omega
  exact ⟨uadd_checked_eq w hu hv, usub_checked_eq w hu hv,
    umul_checked_eq w hu hv, sadd_checked_eq w hw1 ha hb,
    ssub_checked_eq w hw1 ha hb, smul_checked_eq w hw1 ha hb,
    rfl, rfl, rfl, rfl, rfl, rfl⟩

theorem C1_checked_arithmetic_witness :
    UInt.checked_add 8 255 1 = .error .Overflow ∧
    UInt.checked_sub 8 0 1 = .error .Underflow ∧
    UInt.checked_mul 8 16 16 = .error .Overflow ∧
    SInt.checked_add 8 127 1 = .error .Overflow ∧
    SInt.checked_sub 8 (-128) 1 = .error .Overflow ∧
    SInt.checked_mul 8 (-128) (-1) = .error .Overflow ∧
    SInt.checked_mul 8 12 10 = .ok 120 := by
  have hA := C1_checked_arithmetic 8 (Or.inl rfl) 127 1 (by decide) (by decide)
    255 1 (by decide) (by decide)
  have hB := C1_checked_arithmetic 8 (Or.inl rfl) (-128) 1 (by decide) (by decide)
    0 1 (by decide) (by decide)
  have hC := C1_checked_arithmetic 8 (Or.inl rfl) (-128) (-1) (by decide) (by decide)
    16 16 (by decide) (by decide)
  have hD := C1_checked_arithmetic 8 (Or.inl rfl) 12 10 (by decide) (by decide)
    1 1 (by decide) (by decide)
  refine ⟨?_, ?_, ?_, ?_, ?_, ?_, ?_⟩
  · rw [hA.1, if_pos (by decide)]
  · rw [hB.2.1, if_pos (by decide)]
  · rw [hC.2.2.1, if_pos (by decide)]
  · rw [hA.2.2.2.1, if_pos (by decide)]
  · rw [hB.2.2.2.2.1, if_pos (by decide)]
  · rw [hC.2.2.2.2.2.1, if_pos (by decide)]
  · rw [hD.2.2.2.2.2.1, if_neg (by decide)]
    norm_num

/-! ### Claim theorems: division, negation, wrapping -/

/-- Claim C10: signed unary negation is a checked operation: it fails with
Overflow exactly at MIN, and otherwise returns the exact mathematical
negation (which is again in range). -/
theorem C10_unary_neg (w : Nat) (hw : w = 8 ∨ w = 16 ∨ w = 32 ∨ w = 64)
    (a : Int) (ha : sinRange w a) :
    (SInt.neg w a = .error .Overflow ↔ a = smin w) ∧
    (a ≠ smin w → SInt.neg w a = .ok (-a) ∧ sinRange w (-a)) := by
  obtain ⟨h1, h2⟩ := ha
  have hs : smin w = -(2 ^ (w - 1)) := rfl
  have hx : smax w = 2 ^ (w - 1) - 1 := rfl
  constructor
  · unfold SInt.neg
    split_ifs with h
    · exact iff_of_true rfl h
    · exact iff_of_false (by simp) h
  · intro h
    exact ⟨by unfold SInt.neg; rw [if_neg h], by omega, by omega⟩

theorem C10_unary_neg_witness :
    SInt.neg 8 (-128) = .error .Overflow ∧ SInt.neg 8 127 = .ok (-127) := by
  refine ⟨?_, ?_⟩
  · exact (C10_unary_neg 8 (Or.inl rfl) (-128) (by decide)).1.mpr (by decide)
  · exact ((C10_unary_neg 8 (Or.inl rfl) 127 (by decide)).2 (by decide)).1

/-- Claim C6: the plain operators never fail and return the value whose
w-bit representation is the mathematical result reduced modulo `2 ^ w`:
the result is congruent to the mathematical result modulo `2 ^ w` and lies
in the range of the type; for 8-bit unsigned values, 200 + 100 yields 44. -/
theorem C6_plain_wrapping (w : Nat) (hw : w = 8 ∨ w = 16 ∨ w = 32 ∨ w = 64)
    (a b u v : Int) :
    (UInt.add w u v % 2 ^ w = (u + v) % 2 ^ w ∧ uinRange w (UInt.add w u v)) ∧
    (UInt.sub w u v % 2 ^ w = (u - v) % 2 ^ w ∧ uinRange w (UInt.sub w u v)) ∧
    (UInt.mul w u v % 2 ^ w = (u * v) % 2 ^ w ∧ uinRange w (UInt.mul w u v)) ∧
    (SInt.add w a b % 2 ^ w = (a + b) % 2 ^ w ∧ sinRange w (SInt.add w a b)) ∧
    (SInt.sub w a b % 2 ^ w = (a - b) % 2 ^ w ∧ sinRange w (SInt.sub w a b)) ∧
    (SInt.mul w a b % 2 ^ w = (a * b) % 2 ^ w ∧ sinRange w (SInt.mul w a b)) ∧
    UInt.add 8 200 100 = 44 := by
  have hw1 : 1 ≤ w := by rcases hw with h | h | h | h <;> omega
  exact ⟨⟨wrapU_emod w _, wrapU_range w _⟩, ⟨wrapU_emod w _, wrapU_range w _⟩,
    ⟨wrapU_emod w _, wrapU_range w _⟩, ⟨wrapS_emod w hw1 _, wrapS_range w hw1 _⟩,
    ⟨wrapS_emod w hw1 _, wrapS_range w hw1 _⟩,
    ⟨wrapS_emod w hw1 _, wrapS_range w hw1 _⟩, by decide⟩

theorem C6_plain_wrapping_witness :
    UInt.add 8 200 100 = 44 ∧ sinRange 8 (SInt.add 8 100 100) := by
  have h := C6_plain_wrapping 8 (Or.inl rfl) 100 100 200 100
  exact ⟨h.2.2.2.2.2.2, h.2.2.2.1.2⟩

/-- Claim C7 (divergence of the unsigned native-shift overloads): the
native-integral shift overloads of the unsigned type guard only against
amounts at least the bit width, so a negative native shift amount raises no
failure and control reaches the native shift expression; the signed
overloads do reject negative amounts as the claim states. -/
theorem C7_shift_guard_gap :
    (∀ e : HError, UInt.shlNative 8 1 (-1) ≠ Except.error e) ∧
    (∀ e : HError, UInt.shrNative 8 1 (-1) ≠ Except.error e) ∧
    SInt.shlNative 8 1 (-1) = Except.error HError.ShiftOutOfRange ∧
    SInt.shrNative 8 1 (-1) = Except.error HError.ShiftOutOfRange := by
  refine ⟨?_, ?_, ?_, ?_⟩
  · intro e
    unfold UInt.shlNative
    rw [if_neg (by decide)]
    simp
  · intro e
    unfold UInt.shrNative
    rw [if_neg (by decide)]
    simp
  · unfold SInt.shlNative
    rw [if_pos (by decide)]
  · unfold SInt.shrNative
    rw [if_pos (by decide)]

theorem roundtrip32 (x : Int) (hx0 : 0 ≤ x) (hx : x ≤ smax 32) :
    (SInt.fromUInt 32 32 x).bind (UInt.fromSInt 32 32) = .ok x := by
  have e1 : wrapU 32 (smax 32) = smax 32 := wrapU_eq_self 32 ⟨by decide, by decide⟩
  have hmin : smin 32 ≤ 0 := by decide
  have hmaxu : smax 32 ≤ umax 32 := by decide
  have e2 : wrapS 32 x = x := wrapS_eq_self 32 (by norm_num) ⟨by omega, hx⟩
  unfold SInt.fromUInt
  rw [e1, if_neg (not_lt.mpr hx), e2]
  show UInt.fromSInt 32 32 x = .ok x
  unfold UInt.fromSInt
  rw [if_neg (not_lt.mpr hx0), if_neg (by rintro ⟨h, -⟩; omega),
    wrapU_eq_self 32 ⟨hx0, by omega⟩]

set_option maxHeartbeats 1600000 in
/-- Claim C5: unsigned-to-signed conversion fails with OutOfRange exactly
when the source exceeds the target MAX; signed-to-unsigned conversion fails
with NegativeToUnsigned exactly when the source is negative, and otherwise
with OutOfRange exactly when the value exceeds the target MAX; converting a
BoundedUInt32 value at most INT32_MAX to BoundedInt32 and back is the
identity. -/
theorem C5_conversions (tw sw : Nat)
    (h1 : tw = 8 ∨ tw = 16 ∨ tw = 32 ∨ tw = 64)
    (h2 : sw = 8 ∨ sw = 16 ∨ sw = 32 ∨ sw = 64)
    (v : Int) (hv : uinRange sw v) (s : Int) (hs : sinRange sw s) :
    (SInt.fromUInt tw sw v = .error .OutOfRange ↔ smax tw < v) ∧
    (v ≤ smax tw → SInt.fromUInt tw sw v = .ok v) ∧
    (UInt.fromSInt tw sw s = .error .NegativeToUnsigned ↔ s < 0) ∧
    (0 ≤ s → (UInt.fromSInt tw sw s = .error .OutOfRange ↔ umax tw < s)) ∧
    (0 ≤ s → s ≤ umax tw → UInt.fromSInt tw sw s = .ok s) ∧
    (∀ x : Int, 0 ≤ x → x ≤ smax 32 →
      (SInt.fromUInt 32 32 x).bind (UInt.fromSInt 32 32) = .ok x) := by
  rcases h1 with h1 | h1 | h1 | h1 <;> rcases h2 with h2 | h2 | h2 | h2 <;>
    subst h1 <;> subst h2 <;>
    refine ⟨?_, ?_, ?_, ?_, ?_, fun x hx0 hx => roundtrip32 x hx0 hx⟩ <;>
    intros <;>
    simp only [uinRange, sinRange, SInt.fromUInt, UInt.fromSInt, wrapU, wrapS,
      umax, smax, smin] at * <;>
    norm_num at * <;>
    (try split_ifs) <;> (try simp_all) <;> (try omega)

/-! ### TaggedUnion (src/unnamed/part_003, class Union) -/

/-- State of `Union<Types...>` (src/unnamed/part_003 lines 74-287): a byte
buffer plus `int active_type` initialized to -1.  Under the data-model
invariant (spec section 3) a tag `i` means the buffer holds a validly
constructed value of the i-th member type and a tag -1 means no live object;
the state is embedded as an optional dependent pair over the member index.
Member types are identified by their index in the closed list, exactly as
`get_type_index<T>` computes it. -/
structure HUnion (n : Nat) (P : Fin n → Type) where
  store : Option (Sigma P)

/-- `Union()` (src/unnamed/part_003 line 117): default state, tag -1. -/
def HUnion.empty (n : Nat) (P : Fin n → Type) : HUnion n P := ⟨none⟩

/-- `Union::active` (src/unnamed/part_003 line 194). -/
def HUnion.active {n : Nat} {P : Fin n → Type} (u : HUnion n P) : Int :=
  match u.store with
  | none => -1
  | some ⟨j, _⟩ => ((j : Nat) : Int)

/-- `Union::reset` (src/unnamed/part_003 lines 196-201): destroy the active
payload, if any, and set the tag to -1; a no-op when already empty. -/
def HUnion.reset {n : Nat} {P : Fin n → Type} (_u : HUnion n P) : HUnion n P :=
  ⟨none⟩

/-- `Union::set<T>` (src/unnamed/part_003 lines 162-168): reset, construct
the new payload in the buffer, record the type index. -/
def HUnion.set {n : Nat} {P : Fin n → Type} (_u : HUnion n P) (i : Fin n)
    (x : P i) : HUnion n P :=
  ⟨some ⟨i, x⟩⟩

/-- `Union::get<T>` (src/unnamed/part_003 lines 170-186): if `active_type`
differs from the index of `T` (in particular when it is -1) the call throws
`Wrong active type in union`; otherwise the buffer is returned as a `T`. -/
def HUnion.get {n : Nat} {P : Fin n → Type} (u : HUnion n P) (i : Fin n) :
    Except HError (P i) :=
  match u.store with
  | none => .error .WrongActiveType
  | some ⟨j, x⟩ => if h : j = i then .ok (h ▸ x) else .error .WrongActiveType

/-- `Union::is<T>` (src/unnamed/part_003 lines 188-192):
`active_type == get_type_index<T>()`. -/
def HUnion.is {n : Nat} {P : Fin n → Type} (u : HUnion n P) (i : Fin n) : Bool :=
  match u.store with
  | none => false
  | some ⟨j, _⟩ => decide (j = i)

/-- Copy constructor (src/unnamed/part_003 lines 128-132) with `copy_from`
(lines 231-237): duplicate the buffer, re-run the active member copy
constructor on it, copy the tag; the source is read through a const
reference.  The pair is (constructed union, source after the call). -/
def HUnion.copyCtor {n : Nat} {P : Fin n → Type} (src : HUnion n P) :
    HUnion n P × HUnion n P :=
  (⟨src.store⟩, src)

/-- Move constructor (src/unnamed/part_003 lines 134-139) with `move_from`
(lines 239-243): duplicate buffer and tag, then set the source tag to -1
without destroying.  The pair is (constructed union, source after the
call). -/
def HUnion.moveCtor {n : Nat} {P : Fin n → Type} (src : HUnion n P) :
    HUnion n P × HUnion n P :=
  (⟨src.store⟩, ⟨none⟩)

/-- Copy assignment (src/unnamed/part_003 lines 141-149): the `this !=
&other` aliasing guard is the boolean argument (when the operands alias,
destination and source are the same state); distinct objects reset the
destination and copy from the source; the aliased call does nothing. -/
def HUnion.copyAssign {n : Nat} {P : Fin n → Type} (same : Bool)
    (dst src : HUnion n P) : HUnion n P :=
  if same then dst else ⟨src.store⟩

/-- Move assignment (src/unnamed/part_003 lines 151-160): as copy
assignment, but the source tag is set to -1.  The pair is (destination
after, source after). -/
def HUnion.moveAssign {n : Nat} {P : Fin n → Type} (same : Bool)
    (dst src : HUnion n P) : HUnion n P × HUnion n P :=
  if same then (dst, src) else (⟨src.store⟩, ⟨none⟩)

theorem HUnion.get_of_store {n : Nat} {P : Fin n → Type} (u : HUnion n P)
    (i : Fin n) (z : P i) (h : u.store = some ⟨i, z⟩) : u.get i = .ok z := by
  unfold HUnion.get
  rw [h]
  exact dif_pos rfl

theorem HUnion.get_of_store_ne {n : Nat} {P : Fin n → Type} (u : HUnion n P)
    (i j : Fin n) (z : P j) (hij : j ≠ i) (h : u.store = some ⟨j, z⟩) :
    u.get i = .error .WrongActiveType := by
  unfold HUnion.get
  rw [h]
  exact dif_neg hij

theorem HUnion.is_of_store {n : Nat} {P : Fin n → Type} (u : HUnion n P)
    (i : Fin n) (z : P i) (h : u.store = some ⟨i, z⟩) : u.is i = true := by
  unfold HUnion.is
  rw [h]
  exact decide_eq_true rfl

theorem HUnion.is_of_store_ne {n : Nat} {P : Fin n → Type} (u : HUnion n P)
    (i j : Fin n) (z : P j) (hij : j ≠ i) (h : u.store = some ⟨j, z⟩) :
    u.is i = false := by
  unfold HUnion.is
  rw [h]
  exact decide_eq_false hij

/-- Claim C2: after set at index i then set at a distinct index j, the union
is not holding i, is holding j, get at i fails with WrongActiveType, get at
j returns the second value; after reset (and on a never-set union) the tag
is -1 and get fails with WrongActiveType at every member index. -/
theorem C2_tagged_union_set_get (n : Nat) (P : Fin n → Type) (i j : Fin n)
    (hij : i ≠ j) (x : P i) (y : P j) (u : HUnion n P) :
    ((u.set i x).set j y).is i = false ∧
    ((u.set i x).set j y).is j = true ∧
    ((u.set i x).set j y).get i = .error .WrongActiveType ∧
    ((u.set i x).set j y).get j = .ok y ∧
    (∀ v : HUnion n P, v.reset.active = -1 ∧
      ∀ t : Fin n, v.reset.get t = .error .WrongActiveType) ∧
    (HUnion.empty n P).active = -1 ∧
    (∀ t : Fin n, (HUnion.empty n P).get t = .error .WrongActiveType) := by
  refine ⟨HUnion.is_of_store_ne _ i j y (fun h => hij h.symm) rfl,
    HUnion.is_of_store _ j y rfl,
    HUnion.get_of_store_ne _ i j y (fun h => hij h.symm) rfl,
    HUnion.get_of_store _ j y rfl,
    fun v => ⟨rfl, fun t => rfl⟩, rfl, fun t => rfl⟩

theorem C2_tagged_union_set_get_witness :
    (((HUnion.empty 2 (fun _ => Int)).set 0 5).set 1 7).is 0 = false ∧
    (((HUnion.empty 2 (fun _ => Int)).set 0 5).set 1 7).is 1 = true ∧
    (((HUnion.empty 2 (fun _ => Int)).set 0 5).set 1 7).get 0
      = .error .WrongActiveType ∧
    (((HUnion.empty 2 (fun _ => Int)).set 0 5).set 1 7).get 1 = .ok 7 := by
  have h := C2_tagged_union_set_get 2 (fun _ => Int) 0 1 (by decide) 5 7
    (HUnion.empty 2 (fun _ => Int))
  exact ⟨h.1, h.2.1, h.2.2.1, h.2.2.2.1⟩

/-- Claim C4: copy construction and copy assignment duplicate tag and
payload of the source, leaving the source unchanged; move construction and
move assignment transfer them and leave the moved-from union with tag -1;
self-assignment, copy or move, leaves the state unchanged; a copied union
holding a payload answers is and get like the original. -/
theorem C4_union_copy_move (n : Nat) (P : Fin n → Type) (u d : HUnion n P) :
    ((HUnion.copyCtor u).1.store = u.store ∧ (HUnion.copyCtor u).2 = u) ∧
    ((HUnion.moveCtor u).1.store = u.store ∧
      (HUnion.moveCtor u).2.active = -1) ∧
    (HUnion.copyAssign false d u).store = u.store ∧
    ((HUnion.moveAssign false d u).1.store = u.store ∧
      (HUnion.moveAssign false d u).2.active = -1) ∧
    HUnion.copyAssign true u u = u ∧
    HUnion.moveAssign true u u = (u, u) ∧
    (∀ (i : Fin n) (z : P i), u.store = some ⟨i, z⟩ →
      ((HUnion.copyCtor u).1.is i = true ∧
        (HUnion.copyCtor u).1.get i = .ok z ∧
        (HUnion.moveCtor u).1.is i = true ∧
        (HUnion.moveCtor u).1.get i = .ok z)) := by
  refine ⟨⟨rfl, rfl⟩, ⟨rfl, rfl⟩, rfl, ⟨rfl, rfl⟩, rfl, rfl, ?_⟩
  intro i z hz
  exact ⟨HUnion.is_of_store _ i z hz, HUnion.get_of_store _ i z hz,
    HUnion.is_of_store _ i z hz, HUnion.get_of_store _ i z hz⟩

theorem C4_union_copy_move_witness :
    (HUnion.copyCtor ((HUnion.empty 2 (fun _ => Int)).set 0 5)).1.get 0
      = .ok 5 ∧
    (HUnion.moveCtor ((HUnion.empty 2 (fun _ => Int)).set 0 5)).2.active
      = -1 := by
  have h := C4_union_copy_move 2 (fun _ => Int)
    ((HUnion.empty 2 (fun _ => Int)).set 0 5) (HUnion.empty 2 (fun _ => Int))
  exact ⟨(h.2.2.2.2.2.2 0 5 rfl).2.1, h.2.1.2⟩

theorem C5_conversions_witness :
    SInt.fromUInt 32 32 3000000000 = .error .OutOfRange ∧
    UInt.fromSInt 32 32 (-5) = .error .NegativeToUnsigned ∧
    (SInt.fromUInt 32 32 2000000000).bind (UInt.fromSInt 32 32)
      = .ok 2000000000 := by
  have h := C5_conversions 32 32 (Or.inr (Or.inr (Or.inl rfl)))
    (Or.inr (Or.inr (Or.inl rfl))) 3000000000 (by decide) (-5) (by decide)
  exact ⟨h.1.mpr (by decide), h.2.2.1.mpr (by decide),
    h.2.2.2.2.2 2000000000 (by decide) (by decide)⟩

/-! ### Value (src/unnamed/part_003, class Value) -/

/-- Discriminant constants (src/unnamed/part_003 lines 332-334). -/
def FLOAT_TYPE : Int := 0

def CHAR_TYPE : Int := 1

def VALUE_TYPE : Int := 2

/-- Payload slot of the anonymous union inside `Value` (src/unnamed/part_003
lines 340-346): the slot holds the member last written.  A float64 payload
is carried by its bit pattern and a `Value*` payload by its address, so no
floating-point arithmetic is needed to describe storing a value and reading
it back. -/
inductive VPayload where
  | vfloat (bits : Nat)
  | vchar (c : Int)
  | vptr (addr : Nat)
  | vint (x : Int)
  | vuint (x : Int)
deriving DecidableEq, Repr

/-- `Value` (src/unnamed/part_003 lines 336-421): an `int type` discriminant
plus the union slot. -/
structure Value where
  ty : Int
  payload : VPayload
deriving DecidableEq, Repr

/-- `Value()` (src/unnamed/part_003 line 348): `type(-1), f(0.0)`. -/
def Value.default : Value := ⟨-1, .vfloat 0⟩

/-- `Value(F64)` (src/unnamed/part_003 line 349). -/
def Value.ofFloat (bits : Nat) : Value := ⟨FLOAT_TYPE, .vfloat bits⟩

/-- `Value(U8)` (src/unnamed/part_003 line 350). -/
def Value.ofChar (c : Int) : Value := ⟨CHAR_TYPE, .vchar c⟩

/-- `Value(Value*)` (src/unnamed/part_003 line 351). -/
def Value.ofPtr (addr : Nat) : Value := ⟨VALUE_TYPE, .vptr addr⟩

/-- `Value(I32)` (src/unnamed/part_003 line 352): discriminant 3. -/
def Value.ofInt (x : Int) : Value := ⟨3, .vint x⟩

/-- `Value(U32)` (src/unnamed/part_003 line 353): discriminant 4. -/
def Value.ofUInt (x : Int) : Value := ⟨4, .vuint x⟩

/-- Reading the union member `f`.  When the slot holds another member this
is the bit reinterpretation that the checked accessors never reach, because
every constructor and setter keeps the discriminant and the slot in
agreement. -/
def VPayload.readFloat : VPayload → Nat
  | .vfloat bits => bits
  | _ => 0

/-- Reading the union member `ch`. -/
def VPayload.readChar : VPayload → Int
  | .vchar c => c
  | _ => 0

/-- Reading the union member `val`. -/
def VPayload.readPtr : VPayload → Nat
  | .vptr a => a
  | _ => 0

/-- `Value::as_float` (src/unnamed/part_003 lines 355-360): throws
`Value is not a float` unless the discriminant is FLOAT_TYPE. -/
def Value.as_float (v : Value) : Except HError Nat :=
  if v.ty ≠ FLOAT_TYPE then .error .WrongKind else .ok v.payload.readFloat

/-- `Value::as_char` (src/unnamed/part_003 lines 362-367). -/
def Value.as_char (v : Value) : Except HError Int :=
  if v.ty ≠ CHAR_TYPE then .error .WrongKind else .ok v.payload.readChar

/-- `Value::as_value_ptr` (src/unnamed/part_003 lines 369-374). -/
def Value.as_value_ptr (v : Value) : Except HError Nat :=
  if v.ty ≠ VALUE_TYPE then .error .WrongKind else .ok v.payload.readPtr

/-- `Value::is_float` (src/unnamed/part_003 line 410). -/
def Value.is_float (v : Value) : Bool := decide (v.ty = FLOAT_TYPE)

/-- `Value::is_char` (src/unnamed/part_003 line 411). -/
def Value.is_char (v : Value) : Bool := decide (v.ty = CHAR_TYPE)

/-- `Value::is_value_ptr` (src/unnamed/part_003 line 412). -/
def Value.is_value_ptr (v : Value) : Bool := decide (v.ty = VALUE_TYPE)

/-- `Value::is_int` (src/unnamed/part_003 line 413). -/
def Value.is_int (v : Value) : Bool := decide (v.ty = 3)

/-- `Value::is_uint` (src/unnamed/part_003 line 414). -/
def Value.is_uint (v : Value) : Bool := decide (v.ty = 4)

/-- `Value::set_float` (src/unnamed/part_003 line 416): overwrite
discriminant and payload slot. -/
def Value.set_float (_v : Value) (bits : Nat) : Value := ⟨FLOAT_TYPE, .vfloat bits⟩

/-- `Value::set_char` (src/unnamed/part_003 line 417). -/
def Value.set_char (_v : Value) (c : Int) : Value := ⟨CHAR_TYPE, .vchar c⟩

/-- `Value::set_value_ptr` (src/unnamed/part_003 line 418). -/
def Value.set_value_ptr (_v : Value) (addr : Nat) : Value := ⟨VALUE_TYPE, .vptr addr⟩

/-- `Value::set_int` (src/unnamed/part_003 line 419). -/
def Value.set_int (_v : Value) (x : Int) : Value := ⟨3, .vint x⟩

/-- `Value::set_uint` (src/unnamed/part_003 line 420). -/
def Value.set_uint (_v : Value) (x : Int) : Value := ⟨4, .vuint x⟩

/-- Claim C8: every constructor and setter establishes the invariant that
the discriminant matches the last-written payload kind; every checked
accessor fails with WrongKind exactly when the discriminant differs from its
kind and returns the stored payload otherwise; constructing from a float64
makes is_float true, a subsequent set_char makes is_char true and is_float
false, and as_char on a float-discriminant instance fails with WrongKind. -/
theorem C8_tagged_value :
    (∀ b : Nat, (Value.ofFloat b).ty = FLOAT_TYPE ∧
      (Value.ofFloat b).is_float = true ∧ (Value.ofFloat b).as_float = .ok b) ∧
    (∀ c : Int, (Value.ofChar c).ty = CHAR_TYPE ∧
      (Value.ofChar c).is_char = true ∧ (Value.ofChar c).as_char = .ok c) ∧
    (∀ p : Nat, (Value.ofPtr p).ty = VALUE_TYPE ∧
      (Value.ofPtr p).is_value_ptr = true ∧
      (Value.ofPtr p).as_value_ptr = .ok p) ∧
    (∀ x : Int, (Value.ofInt x).ty = 3 ∧ (Value.ofInt x).is_int = true) ∧
    (∀ x : Int, (Value.ofUInt x).ty = 4 ∧ (Value.ofUInt x).is_uint = true) ∧
    (∀ (v : Value) (b : Nat), (v.set_float b).ty = FLOAT_TYPE ∧
      (v.set_float b).as_float = .ok b) ∧
    (∀ (v : Value) (c : Int), (v.set_char c).ty = CHAR_TYPE ∧
      (v.set_char c).as_char = .ok c) ∧
    (∀ (v : Value) (p : Nat), (v.set_value_ptr p).ty = VALUE_TYPE ∧
      (v.set_value_ptr p).as_value_ptr = .ok p) ∧
    (∀ (v : Value) (x : Int), (v.set_int x).ty = 3 ∧
      (v.set_int x).is_int = true) ∧
    (∀ (v : Value) (x : Int), (v.set_uint x).ty = 4 ∧
      (v.set_uint x).is_uint = true) ∧
    (∀ v : Value, (v.as_float = .error .WrongKind ↔ v.ty ≠ FLOAT_TYPE) ∧
      (v.as_char = .error .WrongKind ↔ v.ty ≠ CHAR_TYPE) ∧
      (v.as_value_ptr = .error .WrongKind ↔ v.ty ≠ VALUE_TYPE)) ∧
    (∀ (b : Nat) (c : Int), ((Value.ofFloat b).set_char c).is_char = true ∧
      ((Value.ofFloat b).set_char c).is_float = false ∧
      (Value.ofFloat b).as_char = .error .WrongKind ∧
      ((Value.ofFloat b).set_char c).as_char = .ok c) := by
  refine ⟨fun b => ⟨rfl, rfl, rfl⟩, fun c => ⟨rfl, rfl, rfl⟩,
    fun p => ⟨rfl, rfl, rfl⟩, fun x => ⟨rfl, rfl⟩, fun x => ⟨rfl, rfl⟩,
    fun v b => ⟨rfl, rfl⟩, fun v c => ⟨rfl, rfl⟩, fun v p => ⟨rfl, rfl⟩,
    fun v x => ⟨rfl, rfl⟩, fun v x => ⟨rfl, rfl⟩, fun v => ⟨?_, ?_, ?_⟩,
    fun b c => ⟨rfl, rfl, rfl, rfl⟩⟩
  · unfold Value.as_float
    split_ifs with h
    · exact iff_of_true rfl h
    · exact iff_of_false (by simp) h
  · unfold Value.as_char
    split_ifs with h
    · exact iff_of_true rfl h
    · exact iff_of_false (by simp) h
  · unfold Value.as_value_ptr
    split_ifs with h
    · exact iff_of_true rfl h
    · exact iff_of_false (by simp) h

/-! ### FInt (float.hpp, staged in src/run.sh lines 520-720) -/

/-- The IEEE comparison `other.value == 0.0` guarding `FInt<w>::operator/`
and `operator%` (src/run.sh lines 599 and 605), taken on the bit pattern of
a width-w float (a natural number below `2 ^ w`): the comparison is true
exactly for the patterns +0 and -0 — those whose bits other than the sign
bit are all clear — and false for every other pattern, including infinities
and NaN. -/
def floatIsZero (w : Nat) (bits : Nat) : Bool := decide (bits % 2 ^ (w - 1) = 0)

/-- `FInt<w>::operator/` (src/run.sh lines 598-603):
`if (other.value == 0.0) throw domain_error; return FInt(value /
other.value)`.  The guard is translated exactly; the IEEE quotient itself is
abstracted as the argument `f` on bit patterns, since the claims concern
only the failure condition and that the non-failing result is the native
one. -/
def FInt.div (w : Nat) (f : Nat → Nat → Nat) (a b : Nat) :
    Except HError Nat :=
  if floatIsZero w b then .error .DivideByZero else .ok (f a b)

/-- `FInt<w>::operator%` (src/run.sh lines 604-609):
`if (other.value == 0.0) throw domain_error; return
FInt(std::fmod(value, other.value))`, the same guard, with `std::fmod`
abstracted as `f` like the quotient. -/
def FInt.mod (w : Nat) (f : Nat → Nat → Nat) (a b : Nat) :
    Except HError Nat :=
  if floatIsZero w b then .error .DivideByZero else .ok (f a b)

/-- Claim C9: float division and modulo fail with DivideByZero exactly when
the divisor bit pattern is exactly zero (+0 or -0); for any nonzero divisor
pattern — including infinities and NaN — they do not fail and return the
native float arithmetic result. -/
theorem C9_float_div_mod (w : Nat) (hw : w = 32 ∨ w = 64)
    (q m : Nat → Nat → Nat) (a b : Nat) (hb : b < 2 ^ w) :
    (FInt.div w q a b = .error .DivideByZero ↔
      (b = 0 ∨ b = 2 ^ (w - 1))) ∧
    (b ≠ 0 → b ≠ 2 ^ (w - 1) → FInt.div w q a b = .ok (q a b)) ∧
    (FInt.mod w m a b = .error .DivideByZero ↔
      (b = 0 ∨ b = 2 ^ (w - 1))) ∧
    (b ≠ 0 → b ≠ 2 ^ (w - 1) → FInt.mod w m a b = .ok (m a b)) := by
  have hzero : floatIsZero w b = true ↔ (b = 0 ∨ b = 2 ^ (w - 1)) := by
    unfold floatIsZero
    simp only [decide_eq_true_eq]
    rcases hw with h | h <;> subst h <;> norm_num at hb ⊢ <;> omega
  refine ⟨?_, ?_, ?_, ?_⟩
  · unfold FInt.div
    split_ifs with h
    · exact iff_of_true rfl (hzero.mp h)
    · exact iff_of_false (by simp) (fun hc => h (hzero.mpr hc))
  · intro h1 h2
    unfold FInt.div
    rw [if_neg (fun hc => (hzero.mp hc).elim h1 h2)]
  · unfold FInt.mod
    split_ifs with h
    · exact iff_of_true rfl (hzero.mp h)
    · exact iff_of_false (by simp) (fun hc => h (hzero.mpr hc))
  · intro h1 h2
    unfold FInt.mod
    rw [if_neg (fun hc => (hzero.mp hc).elim h1 h2)]

theorem C9_float_div_mod_witness :
    FInt.div 32 (fun a _ => a) 5 2139095040 = .ok 5 ∧
    FInt.div 32 (fun a _ => a) 5 0 = .error .DivideByZero ∧
    FInt.div 32 (fun a _ => a) 5 2147483648 = .error .DivideByZero := by
  have h1 := C9_float_div_mod 32 (Or.inl rfl) (fun a _ => a) (fun a _ => a)
    5 2139095040 (by norm_num)
  have h2 := C9_float_div_mod 32 (Or.inl rfl) (fun a _ => a) (fun a _ => a)
    5 0 (by norm_num)
  have h3 := C9_float_div_mod 32 (Or.inl rfl) (fun a _ => a) (fun a _ => a)
    5 2147483648 (by norm_num)
  exact ⟨h1.2.1 (by norm_num) (by norm_num), h2.1.mpr (Or.inl rfl),
    h3.1.mpr (Or.inr (by norm_num))⟩

end holycpp
